import Mathlib

set_option linter.unusedVariables false

/-! Shallow embedding of the bookmac client: feed pagination, like / comment /
follow synchronization and the popularity ranking, translated from the
React + Firestore source (src/components/PostCard.tsx,
src/components/UserProfilePage.tsx, the App component in src/unnamed/part_002,
src/types.ts).  The client is single threaded and event driven; stateful
handlers are embedded as explicit state-passing functions, and interleavings of
asynchronous handlers as sequences of atomic events (the synchronous prefix of a
handler up to its first await, and its resolution). -/

/-- Post document (src/types.ts).  likes is the array of liker uids. -/
structure Post where
  id : String
  uid : String
  authorName : String
  authorPhoto : Option String
  bookTitle : String
  bookAuthor : String
  coverImage : String
  quote : String
  review : String
  rating : Nat
  likes : List String
  createdAt : Int
deriving Repr, DecidableEq

/-- UserProfile document (src/types.ts). -/
structure UserProfile where
  uid : String
  displayName : Option String
  email : Option String
  photoURL : Option String
  followers : List String
  following : List String
  bio : Option String
deriving Repr, DecidableEq

/-- FeedType enum (src/types.ts). -/
inductive FeedType
  | GLOBAL
  | FOLLOWING
deriving Repr, DecidableEq

/-- Firestore arrayUnion applied to a string array field: appends the value if
it is not already present. -/
def arrayUnion (x : String) (l : List String) : List String :=
  if x ∈ l then l else l ++ [x]

/-- Firestore arrayRemove applied to a string array field: removes every
occurrence of the value. -/
def arrayRemove (x : String) (l : List String) : List String :=
  l.filter (fun y => y ≠ x)

/-- Whitespace for the purposes of JavaScript String.prototype.trim. -/
def jsWhitespace (c : Char) : Bool :=
  c = ' ' || c = '\t' || c = '\n' || c = '\r' || c = '\x0B' || c = '\x0C'
    || c = '\u00A0' || c = '\uFEFF' || c = '\u2028' || c = '\u2029'

/-- JavaScript String.prototype.trim: strip leading and trailing whitespace
(structurally recursive over the character list, so that concrete instances
evaluate). -/
def jsTrim (s : String) : String :=
  ⟨((s.data.dropWhile jsWhitespace).reverse.dropWhile jsWhitespace).reverse⟩

/-- JavaScript `a || b` over optional strings: an absent or empty string on the
left falls through to the right operand. -/
def jsOrStr (a b : Option String) : Option String :=
  match a with
  | some s => if s = "" then b else some s
  | none => b

/-! ## Like toggle (PostCard.tsx, handleLike, lines 61-90) -/

/-- Local like state of one PostCard: the isLiked / likeCount React state pair.
The count is an Int because the revert path can drive it below zero. -/
structure LocalLike where
  liked : Bool
  count : Int
deriving Repr, DecidableEq

/-- Optimistic branch of handleLike (lines 69-70): with the wasLiked snapshot
captured at call time, absolutely sets liked := !wasLiked and shifts the
currently displayed count by the corresponding delta (functional setState). -/
def optimisticLike (wasLiked : Bool) (s : LocalLike) : LocalLike :=
  ⟨!wasLiked, if wasLiked then s.count - 1 else s.count + 1⟩

/-- Error branch of handleLike (lines 80-81): absolutely restores
liked := wasLiked and applies the inverse count delta to the currently
displayed count (functional setState), not to the captured snapshot. -/
def revertLike (wasLiked : Bool) (s : LocalLike) : LocalLike :=
  ⟨wasLiked, if wasLiked then s.count + 1 else s.count - 1⟩

/-- One atomic event of an interleaving of handleLike invocations on the same
card: start i runs the synchronous prefix of invocation i (captures the
displayed liked as its wasLiked snapshot, applies the optimistic mutation,
suspends on the network call); succeed i / fail i run its resolution. -/
inductive LikeEvent
  | start (i : Nat)
  | succeed (i : Nat)
  | fail (i : Nat)
deriving Repr, DecidableEq

/-- The card's like state together with the in-flight invocations and the
wasLiked snapshot each one captured. -/
structure LikeSys where
  st : LocalLike
  pending : List (Nat × Bool)
deriving Repr, DecidableEq

/-- Small-step semantics of interleaved handleLike invocations. -/
def likeStep (sys : LikeSys) : LikeEvent → LikeSys
  | .start i =>
      ⟨optimisticLike sys.st.liked sys.st, sys.pending ++ [(i, sys.st.liked)]⟩
  | .succeed i =>
      ⟨sys.st, sys.pending.filter (fun e => e.1 ≠ i)⟩
  | .fail i =>
      match sys.pending.lookup i with
      | some w => ⟨revertLike w sys.st, sys.pending.filter (fun e => e.1 ≠ i)⟩
      | none => sys

/-- Run a whole interleaving. -/
def likeRun (sys : LikeSys) (evs : List LikeEvent) : LikeSys :=
  evs.foldl likeStep sys

/-- Full state of one sequential, successful like toggle: the local UI pair
together with the remote likes array of the post document. -/
structure LikeWorld where
  ui : LocalLike
  likes : List String
deriving Repr, DecidableEq

/-- One complete successful handleLike round trip (optimistic mutation plus the
arrayRemove / arrayUnion update that resolves successfully; the success path
performs no further local action). -/
def likeToggleOk (uid : String) (w : LikeWorld) : LikeWorld :=
  let wasLiked := w.ui.liked
  ⟨optimisticLike wasLiked w.ui,
   if wasLiked then arrayRemove uid w.likes else arrayUnion uid w.likes⟩

/-- The local pair agrees with the remote likes array (the state produced by
the props-sync effect, PostCard.tsx lines 33-37), and the liker appears at most
once (the documented likes-set invariant maintained by arrayUnion). -/
def consistentLike (uid : String) (w : LikeWorld) : Prop :=
  w.ui.liked = w.likes.contains uid ∧
  w.ui.count = (w.likes.length : Int) ∧
  w.likes.count uid ≤ 1

/-! ## Comments (PostCard.tsx, handleAddComment, lines 105-139) -/

/-- Comment document written by handleAddComment (src/types.ts Comment,
PostCard.tsx lines 118-126). -/
structure CommentDoc where
  postId : String
  parentId : Option String
  uid : String
  authorName : String
  authorPhoto : Option String
  text : String
  createdAt : Int
deriving Repr, DecidableEq

/-- Observable outcome of one handleAddComment invocation: number of remote
calls issued, the document written (if any), the comment input text after the
handler, and whether an error alert was surfaced. -/
structure AddCommentResult where
  remoteCalls : Nat
  written : Option CommentDoc
  inputAfter : String
  alerted : Bool
deriving Repr, DecidableEq

/-- Viewer identity resolution `currentUser?.uid || auth.currentUser?.uid`
followed by the falsy check `if (!uid)`. -/
def resolveUid (currentUser : Option UserProfile) (sessionUid : Option String) :
    Option String :=
  match jsOrStr (currentUser.map (fun u => u.uid)) sessionUid with
  | some "" => none
  | x => x

/-- handleAddComment: rejects blank text before any remote call, requires a
resolved viewer identity, appends a flat (parentId = null) comment document,
clears the input on success and alerts without clearing on failure.
remoteOk models whether the addDoc call resolves or rejects. -/
def handleAddComment (postId : String) (newComment : String)
    (currentUser : Option UserProfile) (sessionUid : Option String)
    (sessionName : Option String) (sessionPhoto : Option String)
    (now : Int) (remoteOk : Bool) : AddCommentResult :=
  if jsTrim newComment = "" then ⟨0, none, newComment, false⟩
  else
    match resolveUid currentUser sessionUid with
    | none => ⟨0, none, newComment, true⟩
    | some u =>
        if remoteOk then
          ⟨1,
           some ⟨postId, none, u,
             (jsOrStr (jsOrStr (currentUser.bind (fun c => c.displayName))
                 sessionName) (some "익명")).getD "익명",
             jsOrStr (currentUser.bind (fun c => c.photoURL)) sessionPhoto,
             newComment, now⟩,
           "", false⟩
        else ⟨1, none, newComment, true⟩

/-! ## Follow toggle (UserProfilePage.tsx, handleFollowToggle, lines 56-96) -/

/-- Observable outcome of one handleFollowToggle invocation.  profileAfter is
the page's cached target profile state; viewerCacheAfter is the viewer's own
cached profile (the currentUser prop owned by App), which the handler never
writes; remoteViewerAfter / remoteTargetAfter are the two user documents the
atomic batch touches; alerted records a user-visible error message. -/
structure FollowResult where
  profileAfter : Option UserProfile
  viewerCacheAfter : Option UserProfile
  remoteViewerAfter : UserProfile
  remoteTargetAfter : UserProfile
  alerted : Bool
deriving Repr, DecidableEq

/-- handleFollowToggle: guards on a viewer identity and a loaded profile,
applies the optimistic followers update to the cached target profile, and
commits one atomic two-document batch.  commitOk models whether the batch
commit resolves; on rejection the catch block only alerts - it performs no
rollback of the optimistic state. -/
def handleFollowToggle (currentUser : Option UserProfile) (userId : String)
    (profile : Option UserProfile) (remoteViewer remoteTarget : UserProfile)
    (commitOk : Bool) : FollowResult :=
  match currentUser with
  | none => ⟨profile, none, remoteViewer, remoteTarget, true⟩
  | some cu =>
    match profile with
    | none => ⟨none, some cu, remoteViewer, remoteTarget, false⟩
    | some p =>
        let isFollowing := p.followers.contains cu.uid
        let optimistic : UserProfile :=
          if isFollowing then
            { p with followers := p.followers.filter (fun uid => uid ≠ cu.uid) }
          else
            { p with followers := p.followers ++ [cu.uid] }
        if commitOk then
          if isFollowing then
            ⟨some optimistic, some cu,
             { remoteViewer with following := arrayRemove userId remoteViewer.following },
             { remoteTarget with followers := arrayRemove cu.uid remoteTarget.followers },
             false⟩
          else
            ⟨some optimistic, some cu,
             { remoteViewer with following := arrayUnion userId remoteViewer.following },
             { remoteTarget with followers := arrayUnion cu.uid remoteTarget.followers },
             false⟩
        else
          ⟨some optimistic, some cu, remoteViewer, remoteTarget, true⟩

/-! ## Feed paginator (App component, src/unnamed/part_002, fetchPosts,
lines 109-158, and the IntersectionObserver effect, lines 214-226).
The home view is modelled (the `view !== 'home'` guard is vacuous there).
The store is given as the list of post documents already in the order the
`orderBy('createdAt', 'desc')` query enumerates them (ties resolved by the
store's opaque document ordering). -/

def POSTS_PER_PAGE : Nat := 5

/-- Pagination state of the App component. -/
structure PagState where
  posts : List Post
  lastDoc : Option Post
  hasMore : Bool
  postsLoading : Bool
  loadingMore : Bool
deriving Repr, DecidableEq

/-- The `where('uid','in', followingSlice)` filter: in FOLLOWING mode with a
signed-in user, restrict to authors among the first 30 followed uids (no
filter is added when the slice is empty). -/
def feedFilter (store : List Post) (u : Option UserProfile) (ft : FeedType) :
    List Post :=
  match ft, u with
  | FeedType.FOLLOWING, some usr =>
      let followingSlice := usr.following.take 30
      if followingSlice = [] then store
      else store.filter (fun p => p.uid ∈ followingSlice)
  | _, _ => store

/-- startAfter(c): the portion of the ordered query result strictly after the
cursor document (located by document identity; in the app flow the cursor is
always a document of the same query's previous page). -/
def afterDoc (l : List Post) (c : Post) : List Post :=
  match l with
  | [] => []
  | p :: ps => if p.id = c.id then ps else afterDoc ps c

/-- One page query: order, filter, position after the cursor, limit 5. -/
def queryPosts (store : List Post) (u : Option UserProfile) (ft : FeedType)
    (cursor : Option Post) : List Post :=
  (match cursor with
   | none => feedFilter store u ft
   | some c => afterDoc (feedFilter store u ft) c).take POSTS_PER_PAGE

/-- The FOLLOWING-mode short-circuit guard of fetchPosts (lines 113-118):
true when the feed is FOLLOWING and there is no user or the user follows
nobody. -/
def noFollowGuard (u : Option UserProfile) (ft : FeedType) : Bool :=
  ft = FeedType.FOLLOWING &&
    (match u with
     | none => true
     | some usr => usr.following.isEmpty)

/-- Synchronous prefix of fetchPosts, up to the awaited getDocs call: the
early returns (exhaustion guard, FOLLOWING short-circuit) and the loading
flag set.  The Bool records whether a store query is issued. -/
def fetchStart (u : Option UserProfile) (ft : FeedType) (isInitial : Bool)
    (s : PagState) : PagState × Bool :=
  if !s.hasMore && !isInitial then (s, false)
  else if noFollowGuard u ft then
    ({ s with posts := [], hasMore := false, postsLoading := false }, false)
  else if isInitial then ({ s with postsLoading := true }, true)
  else ({ s with loadingMore := true }, true)

/-- Resolution of fetchPosts after getDocs returns a page: replace or append
the posts, reset the cursor to the page's last document (null on an empty
page), set hasMore exactly when a full page arrived, clear the loading flag. -/
def fetchFinish (isInitial : Bool) (page : List Post) (s : PagState) : PagState :=
  { s with
    posts := if isInitial then page else s.posts ++ page,
    lastDoc := page.getLast?,
    hasMore := page.length = POSTS_PER_PAGE,
    postsLoading := if isInitial then false else s.postsLoading,
    loadingMore := if isInitial then s.loadingMore else false }

/-- A whole fetchPosts invocation run atomically (no interleaving), returning
the new state and the number of store queries performed. -/
def fetchPosts (store : List Post) (u : Option UserProfile) (ft : FeedType)
    (isInitial : Bool) (s : PagState) : PagState × Nat :=
  match fetchStart u ft isInitial s with
  | (s1, false) => (s1, 0)
  | (s1, true) =>
      let cursor := if isInitial then none else s.lastDoc
      (fetchFinish isInitial (queryPosts store u ft cursor) s1, 1)

/-- The IntersectionObserver callback (lines 215-219): triggers a loadMore
only when the sentinel is intersecting, more pages may exist, no load is in
flight and the map view is off.  Runs only the synchronous prefix of the
triggered fetch, so that a second trigger can be examined while the first
fetch is still in flight. -/
def observerTriggerStart (u : Option UserProfile) (ft : FeedType)
    (isIntersecting isMapView : Bool) (s : PagState) : PagState × Bool :=
  if isIntersecting && s.hasMore && !s.loadingMore && !s.postsLoading
      && !isMapView then
    fetchStart u ft false s
  else (s, false)

/-! ## Popularity aggregator (App component, src/unnamed/part_002,
fetchPopular, lines 161-198) -/

/-- RankedBook (derived, non-persisted; App component lines 13-18). -/
structure RankedBook where
  title : String
  author : String
  coverImage : String
  totalLikes : Nat
deriving Repr, DecidableEq

/-- Property names the plain object literal bookMap inherits from
Object.prototype.  For a title in this set the source's membership test
`if (bookMap[title])` is truthy even with no own entry (the inherited value
is a function or object), the `+=` then lands on the inherited object, no own
key is ever created, and Object.values never returns the group: such posts
are silently dropped from the ranking. -/
def protoTrapTitle (t : String) : Bool :=
  t = "constructor" || t = "hasOwnProperty" || t = "isPrototypeOf" ||
  t = "propertyIsEnumerable" || t = "toLocaleString" || t = "toString" ||
  t = "valueOf" || t = "__proto__" || t = "__defineGetter__" ||
  t = "__defineSetter__" || t = "__lookupGetter__" || t = "__lookupSetter__"

/-- The sampled posts whose trimmed titles escape the Object.prototype trap. -/
def dropTrapTitles (posts : List Post) : List Post :=
  posts.filter (fun p => !protoTrapTitle (jsTrim p.bookTitle))

/-- One step of the grouping loop (lines 171-185): skip posts whose trimmed
title is empty; `if (bookMap[title])` is truthy when the title is an own key
of the object or a property name inherited from Object.prototype - then the
`+=` bumps the own entry if there is one (an inherited-only hit mutates the
inherited object, which Object.values never surfaces, so no own entry
changes); otherwise append a new own entry holding the first post's author
and cover. -/
def bookStep (m : List RankedBook) (p : Post) : List RankedBook :=
  let t := jsTrim p.bookTitle
  if t = "" then m
  else if t ∈ m.map (fun b => b.title) ∨ protoTrapTitle t then
    m.map (fun b =>
      if b.title = t then { b with totalLikes := b.totalLikes + p.likes.length }
      else b)
  else m ++ [⟨t, p.bookAuthor, p.coverImage, p.likes.length⟩]

/-- The bookMap object, as the list of its entries in insertion order. -/
def buildBookMap (posts : List Post) : List RankedBook :=
  posts.foldl bookStep []

/-- Numeric value of a decimal digit string. -/
def digitsToNat (l : List Char) : Nat :=
  l.foldl (fun n c => n * 10 + (c.toNat - '0'.toNat)) 0

/-- A canonical JavaScript array-index property key: the decimal form of an
integer below 2^32 - 1 with no leading zero.  Object.values enumerates such
keys before all other keys, in ascending numeric order. -/
def isArrayIndexKey (s : String) : Bool :=
  s ≠ "" && s.data.all Char.isDigit && (s = "0" || s.data.head? ≠ some '0')
    && digitsToNat s.data < 4294967295

/-- Numeric value of an array-index title. -/
def keyNum (b : RankedBook) : Nat := digitsToNat b.title.data

/-- Insert into a list sorted ascending by keyNum (stable). -/
def insertIdxAsc (b : RankedBook) : List RankedBook → List RankedBook
  | [] => [b]
  | c :: cs => if keyNum b < keyNum c then b :: c :: cs else c :: insertIdxAsc b cs

/-- Stable sort ascending by keyNum. -/
def sortIdxAsc : List RankedBook → List RankedBook
  | [] => []
  | b :: bs => insertIdxAsc b (sortIdxAsc bs)

/-- Object.values over the bookMap: array-index titles first in ascending
numeric order, then the remaining titles in insertion order. -/
def jsValuesReorder (m : List RankedBook) : List RankedBook :=
  sortIdxAsc (m.filter (fun b => isArrayIndexKey b.title))
    ++ m.filter (fun b => !(isArrayIndexKey b.title))

/-- Insert into a list sorted descending by totalLikes (stable: an element is
placed after every earlier element with an equal or larger total). -/
def insertDesc (b : RankedBook) : List RankedBook → List RankedBook
  | [] => [b]
  | c :: cs =>
      if c.totalLikes ≤ b.totalLikes then b :: c :: cs else c :: insertDesc b cs

/-- Stable sort descending by totalLikes, the order produced by the stable
JS sort with comparator (a, b) => b.totalLikes - a.totalLikes. -/
def sortDescLikes : List RankedBook → List RankedBook
  | [] => []
  | b :: bs => insertDesc b (sortDescLikes bs)

/-- fetchPopular on an already-sampled window of posts: group via a plain JS
object, enumerate the groups in JS object key order, sort by totalLikes
descending (stable), filter (the predicate holds whenever the sample is
nonempty), keep the first 5.  A pure function of the sample: the source never
writes to the sampled posts. -/
def fetchPopular (posts : List Post) : List RankedBook :=
  ((sortDescLikes (jsValuesReorder (buildBookMap posts))).filter
    (fun b => decide (0 < b.totalLikes) || decide (0 < posts.length))).take 5

/-! ## The popularity claim read literally (C3): groups in insertion order of
each title's first appearance, stable descending sort, first 5. -/

/-- One step of first-appearance title collection: record an unseen nonempty
trimmed title. -/
def titleStep (acc : List String) (p : Post) : List String :=
  let t := jsTrim p.bookTitle
  if t = "" ∨ t ∈ acc then acc else acc ++ [t]

/-- Titles in order of first appearance (trimmed, nonempty). -/
def titlesInOrder (posts : List Post) : List String :=
  posts.foldl titleStep []

/-- First sampled post whose trimmed title is t. -/
def firstWithTitle (posts : List Post) (t : String) : Option Post :=
  posts.find? (fun p => jsTrim p.bookTitle = t)

/-- Sum of the likes cardinalities of the posts in title group t. -/
def groupTotal (posts : List Post) (t : String) : Nat :=
  ((posts.filter (fun p => jsTrim p.bookTitle = t)).map
    (fun p => p.likes.length)).sum

/-- The group record of title t: the first matching post's author and cover,
and the group's summed likes. -/
def groupFor (posts : List Post) (t : String) : RankedBook :=
  match firstWithTitle posts t with
  | some p => ⟨t, p.bookAuthor, p.coverImage, groupTotal posts t⟩
  | none => ⟨t, "", "", groupTotal posts t⟩

/-- The groups in insertion order of first appearance. -/
def specGroups (posts : List Post) : List RankedBook :=
  (titlesInOrder posts).map (groupFor posts)

/-- The popularity aggregator as claim C3 words it: groups in first-appearance
order, stable descending sort by summed likes, first 5 groups. -/
def popularClaimSpec (posts : List Post) : List RankedBook :=
  (sortDescLikes (specGroups posts)).take 5

/-- The amended aggregator contract: identical, except that (a) posts whose
trimmed title is an Object.prototype property name form no group at all, and
(b) the remaining groups enter the sort in JS object key enumeration order
(array-index-like titles first, ascending numerically, then the others in
first-appearance order). -/
def popularAmendedSpec (posts : List Post) : List RankedBook :=
  (sortDescLikes (jsValuesReorder (specGroups (dropTrapTitles posts)))).take 5

/-! ## Demonstration data used by witnesses and counterexamples -/

/-- A sample post for concrete instantiations. -/
def demoPost (n : Nat) : Post :=
  ⟨"p" ++ toString n, "author", "ann", none, "Title", "Auth", "cov",
   "", "", 5, [], 100 - (n : Int)⟩

/-- A sample viewer profile. -/
def demoViewer : UserProfile :=
  ⟨"viewer", some "Viewer", none, none, [], [], none⟩

/-- A post titled Dune with one like. -/
def dunePost : Post :=
  ⟨"p1", "u0", "ann", none, "Dune", "Frank Herbert", "c1", "", "", 5, ["u"], 10⟩

/-- A post titled 1984 with one like; its trimmed title is a canonical JS
array-index key. -/
def orwellPost : Post :=
  ⟨"p2", "u0", "ann", none, "1984", "George Orwell", "c2", "", "", 5, ["v"], 9⟩

/-- A post with one like whose trimmed title is an Object.prototype property
name. -/
def protoPost : Post :=
  ⟨"p3", "u0", "ann", none, "constructor", "Nobody", "c3", "", "", 5, ["w"], 8⟩

/-! ## Theorems for the pagination claims -/

/-- Claim C5 (confirmed): for every viewer whose following set is empty,
loading the FOLLOWING-mode feed (fetchPosts with isInitial = true) returns an
empty page, sets the exhaustion flag (hasMore := false) and performs zero
store queries. -/
theorem claim_C5_following_empty (store : List Post) (usr : UserProfile)
    (s : PagState) (h : usr.following = []) :
    fetchPosts store (some usr) FeedType.FOLLOWING true s =
      ({ s with posts := [], hasMore := false, postsLoading := false }, 0) := by
  simp [fetchPosts, fetchStart, noFollowGuard, h]

/-- Witness for C5 at a concrete viewer and store. -/
theorem claim_C5_witness :
    demoViewer.following = [] ∧
    fetchPosts [demoPost 1] (some demoViewer) FeedType.FOLLOWING true
        ⟨[], none, true, false, false⟩ =
      (⟨[], none, false, false, false⟩, 0) :=
  ⟨rfl, claim_C5_following_empty [demoPost 1] demoViewer ⟨[], none, true, false, false⟩ rfl⟩

/-- Claim C4 (confirmed): loadMore (fetchPosts with isInitial = false) is a
no-op - no fetch, no state change - whenever the exhaustion flag says no
further page exists; otherwise (outside the FOLLOWING-with-empty-following
configuration, which loadInitial has already exhausted per C5, and with a
stored cursor, which the preceding load installed) it performs exactly one
query for the page strictly after the stored cursor, appends that page to the
in-memory sequence, advances the cursor to the page's last document, and ends
exhausted exactly when the page is shorter than the page size 5. -/
theorem claim_C4_loadMore (store : List Post) (u : Option UserProfile)
    (ft : FeedType) (s : PagState) :
    (s.hasMore = false → fetchPosts store u ft false s = (s, 0)) ∧
    (∀ c : Post, s.hasMore = true → noFollowGuard u ft = false →
      s.lastDoc = some c →
      (fetchPosts store u ft false s).2 = 1 ∧
      (fetchPosts store u ft false s).1.posts =
        s.posts ++ (afterDoc (feedFilter store u ft) c).take POSTS_PER_PAGE ∧
      (fetchPosts store u ft false s).1.lastDoc =
        ((afterDoc (feedFilter store u ft) c).take POSTS_PER_PAGE).getLast? ∧
      ((fetchPosts store u ft false s).1.hasMore = false ↔
        ((afterDoc (feedFilter store u ft) c).take POSTS_PER_PAGE).length
          < POSTS_PER_PAGE)) := by
  constructor
  · intro h
    simp [fetchPosts, fetchStart, h]
  · intro c hM hG hC
    refine ⟨?_, ?_, ?_, ?_⟩ <;>
      simp [fetchPosts, fetchStart, fetchFinish, queryPosts, hM, hG, hC]

/-- Witness for C4 at a concrete store and state: one earlier page is loaded,
the cursor sits on demoPost 1, and loadMore appends the two remaining posts
(a short page), exhausting the feed. -/
theorem claim_C4_witness :
    (⟨[demoPost 1], some (demoPost 1), true, false, false⟩ : PagState).hasMore = true ∧
    (fetchPosts [demoPost 1, demoPost 2, demoPost 3] none FeedType.GLOBAL false
        ⟨[demoPost 1], some (demoPost 1), true, false, false⟩).2 = 1 ∧
    (fetchPosts [demoPost 1, demoPost 2, demoPost 3] none FeedType.GLOBAL false
        ⟨[demoPost 1], some (demoPost 1), true, false, false⟩).1.posts =
      [demoPost 1] ++ (afterDoc (feedFilter [demoPost 1, demoPost 2, demoPost 3]
        none FeedType.GLOBAL) (demoPost 1)).take POSTS_PER_PAGE := by
  have h := (claim_C4_loadMore [demoPost 1, demoPost 2, demoPost 3] none
    FeedType.GLOBAL ⟨[demoPost 1], some (demoPost 1), true, false, false⟩).2
    (demoPost 1) rfl (by decide) rfl
  exact ⟨rfl, h.1, h.2.1⟩

/-- Claim C2 (confirmed): with more pages available and no load in flight, a
loadMore trigger (the IntersectionObserver callback) starts exactly one fetch
and raises the loadingMore in-flight flag before suspending; a second trigger
arriving before the first fetch resolves is suppressed by that flag and issues
no query - so two back-to-back invocations produce exactly one store query. -/
theorem claim_C2_single_inflight (u : Option UserProfile) (ft : FeedType)
    (s : PagState) (hM : s.hasMore = true) (hLM : s.loadingMore = false)
    (hPL : s.postsLoading = false) (hG : noFollowGuard u ft = false) :
    (observerTriggerStart u ft true false s).2 = true ∧
    (observerTriggerStart u ft true false s).1.loadingMore = true ∧
    (observerTriggerStart u ft true false
        (observerTriggerStart u ft true false s).1).2 = false := by
  refine ⟨?_, ?_, ?_⟩ <;>
    simp [observerTriggerStart, fetchStart, hM, hLM, hPL, hG]

/-- Witness for C2 at a concrete paginator state. -/
theorem claim_C2_witness :
    (⟨[demoPost 1], some (demoPost 1), true, false, false⟩ : PagState).hasMore = true ∧
    (observerTriggerStart none FeedType.GLOBAL true false
        ⟨[demoPost 1], some (demoPost 1), true, false, false⟩).2 = true ∧
    (observerTriggerStart none FeedType.GLOBAL true false
        (observerTriggerStart none FeedType.GLOBAL true false
          ⟨[demoPost 1], some (demoPost 1), true, false, false⟩).1).2 = false := by
  have h := claim_C2_single_inflight none FeedType.GLOBAL
    ⟨[demoPost 1], some (demoPost 1), true, false, false⟩ rfl rfl rfl (by decide)
  exact ⟨rfl, h.1, h.2.2⟩

/-! ## Theorems for the like-toggle claims -/

/-- The local pair of a successful toggle round trip is the optimistic update
of the current pair (the success path performs no further local action). -/
theorem likeToggleOk_ui (uid : String) (w : LikeWorld) :
    (likeToggleOk uid w).ui = optimisticLike w.ui.liked w.ui := rfl

/-- Two consecutive optimistic updates cancel on the local pair. -/
theorem optimisticLike_involutive (s : LocalLike) :
    optimisticLike (optimisticLike s.liked s).liked (optimisticLike s.liked s)
      = s := by
  obtain ⟨b, c⟩ := s
  cases b <;> simp [optimisticLike]

/-- The local pair under iterated successful toggles evolves autonomously. -/
theorem likeToggleOk_iterate_ui (uid : String) (w : LikeWorld) (n : Nat) :
    ((likeToggleOk uid)^[n] w).ui =
      (fun s : LocalLike => optimisticLike s.liked s)^[n] w.ui := by
  induction n generalizing w with
  | zero => rfl
  | succ n ih =>
      rw [Function.iterate_succ_apply, Function.iterate_succ_apply]
      exact ih (likeToggleOk uid w)

/-- An even number of optimistic updates is the identity on the local pair. -/
theorem optimisticLike_iterate_two_mul (n : Nat) :
    ∀ s : LocalLike,
      (fun s : LocalLike => optimisticLike s.liked s)^[2 * n] s = s := by
  induction n with
  | zero => intro s; rfl
  | succ n ih =>
      intro s
      rw [Nat.mul_succ, Function.iterate_add_apply]
      have h2 : (fun s : LocalLike => optimisticLike s.liked s)^[2] s = s :=
        optimisticLike_involutive s
      rw [h2]
      exact ih s

/-- Removing a uid occurring at most once from a list it belongs to shortens
the list by exactly one. -/
theorem length_filter_ne_of_count_le_one (uid : String) (l : List String)
    (h : l.count uid ≤ 1) (hm : uid ∈ l) :
    (l.filter (fun y => y ≠ uid)).length + 1 = l.length := by
  induction l with
  | nil => cases hm
  | cons a l ih =>
      rcases eq_or_ne a uid with ha | ha
      · subst ha
        have hcc : (a :: l).count a = l.count a + 1 := by
          simp [List.count_cons]
        have hc : l.count a = 0 := by omega
        have hnm : a ∉ l := by
          intro hmem
          have hpos : 0 < l.count a := List.count_pos_iff.mpr hmem
          omega
        have hf : l.filter (fun y => y ≠ a) = l := by
          apply List.filter_eq_self.mpr
          intro x hx
          simp only [ne_eq, decide_eq_true_eq]
          exact fun hxa => hnm (hxa ▸ hx)
        simp only [List.filter_cons, ne_eq, decide_not]
        simp [hf]
        intro x hx hxa
        exact hnm (hxa ▸ hx)
      · have hm' : uid ∈ l := by
          cases hm with
          | head => exact absurd rfl ha
          | tail _ h2 => exact h2
        have hcc : (a :: l).count uid = l.count uid := by
          simp [List.count_cons, ha]
        have h' : l.count uid ≤ 1 := by omega
        have hrec := ih h' hm'
        have hfa : (a :: l).filter (fun y => y ≠ uid)
            = a :: l.filter (fun y => y ≠ uid) := by
          simp [List.filter_cons, ha]
        rw [hfa]
        simp only [List.length_cons]
        omega

/-- One successful toggle round trip preserves local / remote consistency. -/
theorem likeToggleOk_consistent (uid : String) (w : LikeWorld)
    (h : consistentLike uid w) : consistentLike uid (likeToggleOk uid w) := by
  obtain ⟨h1, h2, h3⟩ := h
  by_cases hm : uid ∈ w.likes
  · have hl : w.ui.liked = true := by rw [h1]; simp [hm]
    have hlen := length_filter_ne_of_count_le_one uid w.likes h3 hm
    have hnm : uid ∉ w.likes.filter (fun y => y ≠ uid) := by
      simp [List.mem_filter]
    refine ⟨?_, ?_, ?_⟩
    · simp [likeToggleOk, hl, optimisticLike, arrayRemove, hnm]
    · simp only [likeToggleOk, hl, optimisticLike, arrayRemove]
      rw [h2]
      simp only [if_true]
      omega
    · have h0 : (likeToggleOk uid w).likes = arrayRemove uid w.likes := by
        simp [likeToggleOk, hl]
      rw [h0]
      have : (arrayRemove uid w.likes).count uid = 0 :=
        List.count_eq_zero.mpr (by simp [arrayRemove, List.mem_filter])
      omega
  · have hl : w.ui.liked = false := by rw [h1]; simp [hm]
    have hc : w.likes.count uid = 0 := List.count_eq_zero.mpr hm
    have hun : arrayUnion uid w.likes = w.likes ++ [uid] := by
      simp [arrayUnion, hm]
    refine ⟨?_, ?_, ?_⟩
    · simp [likeToggleOk, hl, optimisticLike, hun]
    · simp only [likeToggleOk, hl, optimisticLike, hun]
      rw [h2]
      simp [List.length_append]
    · have h0 : (likeToggleOk uid w).likes = w.likes ++ [uid] := by
        simp [likeToggleOk, hl, hun]
      rw [h0]
      simp [List.count_append, hc, List.count_cons]

/-- Claim C6 (confirmed): successful like toggles applied one after another
behave exactly as the sequential application of the toggle step: consistency
of the displayed pair with the remote likes array is preserved at every step,
an even number of toggles - in particular a like followed by an unlike -
restores the displayed boolean and count exactly, with no drift for any N. -/
theorem claim_C6_sequential_toggles (uid : String) (w : LikeWorld) :
    (consistentLike uid w →
      ∀ n, consistentLike uid ((likeToggleOk uid)^[n] w)) ∧
    (∀ n, ((likeToggleOk uid)^[2 * n] w).ui = w.ui) ∧
    (likeToggleOk uid (likeToggleOk uid w)).ui = w.ui := by
  refine ⟨?_, ?_, ?_⟩
  · intro h n
    induction n with
    | zero => exact h
    | succ n ih =>
        rw [Function.iterate_succ_apply']
        exact likeToggleOk_consistent uid _ ih
  · intro n
    rw [likeToggleOk_iterate_ui]
    exact optimisticLike_iterate_two_mul n w.ui
  · show optimisticLike (likeToggleOk uid w).ui.liked (likeToggleOk uid w).ui
        = w.ui
    rw [likeToggleOk_ui]
    exact optimisticLike_involutive w.ui

/-- Witness for C6 at a concrete consistent world. -/
theorem claim_C6_witness :
    consistentLike "u" ⟨⟨true, 2⟩, ["u", "v"]⟩ ∧
    consistentLike "u" ((likeToggleOk "u")^[3] ⟨⟨true, 2⟩, ["u", "v"]⟩) ∧
    ((likeToggleOk "u")^[2 * 2] ⟨⟨true, 2⟩, ["u", "v"]⟩).ui = ⟨true, 2⟩ :=
  ⟨⟨by decide, by decide, by decide⟩,
   (claim_C6_sequential_toggles "u" ⟨⟨true, 2⟩, ["u", "v"]⟩).1
     ⟨by decide, by decide, by decide⟩ 3,
   (claim_C6_sequential_toggles "u" ⟨⟨true, 2⟩, ["u", "v"]⟩).2.1 2⟩

/-- Claim C1 counterexample: two overlapping toggle invocations on the same
card, the first failing after the second's optimistic mutation has been
applied.  From liked = false, count = 0: invocation 1 starts (displays true,
1), invocation 2 starts (displays false, 0), invocation 1 fails and rolls
back - the displayed count becomes -1, not the 0 that was displayed
immediately before invocation 1's optimistic mutation, so the rollback is not
exact for every interleaving as the claim states. -/
theorem claim_C1_counterexample :
    likeRun ⟨⟨false, 0⟩, []⟩
        [LikeEvent.start 1, LikeEvent.start 2, LikeEvent.fail 1] =
      ⟨⟨false, -1⟩, [(2, true)]⟩ ∧
    (⟨false, -1⟩ : LocalLike) ≠ (⟨false, 0⟩ : LocalLike) :=
  ⟨by decide, by decide⟩

/-- Claim C1 (amended): the failure rollback restores the liked boolean to the
pre-optimistic snapshot captured at call time under every interleaving, and
reverts the count by applying the inverse of the invocation's optimistic
delta to the currently displayed count; consequently an invocation that fails
with no intervening toggle mutation restores both displayed values exactly to
their pre-optimistic snapshot. -/
theorem claim_C1_amended :
    (∀ (s0 : LocalLike) (i : Nat),
      likeRun ⟨s0, []⟩ [LikeEvent.start i, LikeEvent.fail i] = ⟨s0, []⟩) ∧
    (∀ (sys : LikeSys) (i : Nat) (w : Bool), sys.pending.lookup i = some w →
      (likeStep sys (LikeEvent.fail i)).st.liked = w ∧
      (likeStep sys (LikeEvent.fail i)).st.count =
        sys.st.count + (if w then 1 else -1)) := by
  constructor
  · intro s0 i
    obtain ⟨b, c⟩ := s0
    cases b <;>
      simp [likeRun, likeStep, optimisticLike, revertLike, List.lookup]
  · intro sys i w h
    constructor
    · simp [likeStep, h, revertLike]
    · cases w <;> simp [likeStep, h, revertLike, Int.sub_eq_add_neg]

/-- Witness for C1's amended rollback contract at a concrete in-flight
invocation. -/
theorem claim_C1_witness :
    ((⟨⟨true, 3⟩, [(7, true)]⟩ : LikeSys).pending.lookup 7 = some true) ∧
    (likeStep ⟨⟨true, 3⟩, [(7, true)]⟩ (LikeEvent.fail 7)).st.liked = true ∧
    (likeStep ⟨⟨true, 3⟩, [(7, true)]⟩ (LikeEvent.fail 7)).st.count =
      (⟨⟨true, 3⟩, [(7, true)]⟩ : LikeSys).st.count + (if true then 1 else -1) :=
  ⟨by decide,
   (claim_C1_amended.2 ⟨⟨true, 3⟩, [(7, true)]⟩ 7 true (by decide)).1,
   (claim_C1_amended.2 ⟨⟨true, 3⟩, [(7, true)]⟩ 7 true (by decide)).2⟩

/-! ## Theorems for the comment claim -/

/-- Claim C7 (confirmed): handleAddComment rejects empty or whitespace-only
text locally with no remote call and no state change; with a resolved viewer
identity, a successful remote append writes a document with parentId = null
and clears the input, while a failed remote append surfaces an error and
leaves the input text unchanged. -/
theorem claim_C7_addComment (postId newComment : String)
    (currentUser : Option UserProfile)
    (sessionUid sessionName sessionPhoto : Option String)
    (now : Int) (remoteOk : Bool) :
    (jsTrim newComment = "" →
      handleAddComment postId newComment currentUser sessionUid sessionName
        sessionPhoto now remoteOk = ⟨0, none, newComment, false⟩) ∧
    (jsTrim newComment ≠ "" → ∀ u, resolveUid currentUser sessionUid = some u →
      (remoteOk = true →
        ∃ d, handleAddComment postId newComment currentUser sessionUid
            sessionName sessionPhoto now remoteOk = ⟨1, some d, "", false⟩ ∧
          d.parentId = none ∧ d.uid = u ∧ d.text = newComment) ∧
      (remoteOk = false →
        handleAddComment postId newComment currentUser sessionUid sessionName
          sessionPhoto now remoteOk = ⟨1, none, newComment, true⟩)) := by
  refine ⟨?_, ?_⟩
  · intro h
    simp [handleAddComment, h]
  · intro h u hu
    constructor
    · intro hok
      subst hok
      simp [handleAddComment, h, hu]
    · intro hko
      subst hko
      simp [handleAddComment, h, hu]

/-- Witness for C7 at a concrete comment draft, on both remote outcomes. -/
theorem claim_C7_witness :
    jsTrim "hello" ≠ "" ∧
    resolveUid (some demoViewer) none = some "viewer" ∧
    (∃ d, handleAddComment "p1" "hello" (some demoViewer) none none none 7 true
        = ⟨1, some d, "", false⟩ ∧
      d.parentId = none ∧ d.uid = "viewer" ∧ d.text = "hello") ∧
    handleAddComment "p1" "hello" (some demoViewer) none none none 7 false =
      ⟨1, none, "hello", true⟩ :=
  ⟨by decide, by decide,
   ((claim_C7_addComment "p1" "hello" (some demoViewer) none none none 7
      true).2 (by decide) "viewer" (by decide)).1 rfl,
   ((claim_C7_addComment "p1" "hello" (some demoViewer) none none none 7
      false).2 (by decide) "viewer" (by decide)).2 rfl⟩

/-! ## Theorems for the follow-toggle claims -/

/-- Claim C8 (confirmed): with no viewer identity, handleFollowToggle surfaces
a user-visible message and attempts no state change, local or remote; when the
batch commit fails, the optimistic local profile state is left as-is - no
rollback - while the remote documents are unchanged and an error is surfaced. -/
theorem claim_C8_follow_failure (cu : UserProfile) (userId : String)
    (anyProfile : Option UserProfile) (p : UserProfile)
    (rv rt : UserProfile) (ok : Bool) :
    handleFollowToggle none userId anyProfile rv rt ok =
      ⟨anyProfile, none, rv, rt, true⟩ ∧
    handleFollowToggle (some cu) userId (some p) rv rt false =
      ⟨some (if p.followers.contains cu.uid then
          { p with followers := p.followers.filter (fun x => x ≠ cu.uid) }
        else { p with followers := p.followers ++ [cu.uid] }),
       some cu, rv, rt, true⟩ :=
  ⟨rfl, rfl⟩

/-- Claim C10 (confirmed): the optimistic update of the follow toggle changes
only the cached target profile's followers array - removing or adding exactly
the viewer's uid - leaves every other field of that profile unchanged, and
never touches the viewer's own cached profile (in particular its following
set). -/
theorem claim_C10_follow_frame (cu : UserProfile) (userId : String)
    (p rv rt : UserProfile) (ok : Bool) :
    ∃ q : UserProfile,
      (handleFollowToggle (some cu) userId (some p) rv rt ok).profileAfter
        = some q ∧
      q.followers = (if p.followers.contains cu.uid
        then p.followers.filter (fun x => x ≠ cu.uid)
        else p.followers ++ [cu.uid]) ∧
      q.uid = p.uid ∧ q.displayName = p.displayName ∧ q.email = p.email ∧
      q.photoURL = p.photoURL ∧ q.following = p.following ∧ q.bio = p.bio ∧
      (handleFollowToggle (some cu) userId (some p) rv rt ok).viewerCacheAfter
        = some cu := by
  by_cases hf : cu.uid ∈ p.followers
  · refine ⟨{ p with followers := p.followers.filter (fun x => x ≠ cu.uid) },
      ?_, ?_, rfl, rfl, rfl, rfl, rfl, rfl, ?_⟩
    · cases ok <;> simp [handleFollowToggle, hf]
    · simp [hf]
    · cases ok <;> simp [handleFollowToggle, hf]
  · refine ⟨{ p with followers := p.followers ++ [cu.uid] },
      ?_, ?_, rfl, rfl, rfl, rfl, rfl, rfl, ?_⟩
    · cases ok <;> simp [handleFollowToggle, hf]
    · simp [hf]
    · cases ok <;> simp [handleFollowToggle, hf]

/-! ## The JS-object grouping fold equals the first-appearance grouping -/

/-- Membership of the first-appearance title fold, generalized over the
accumulator. -/
theorem mem_foldl_titleStep (ps : List Post) :
    ∀ (acc : List String) (t : String),
      t ∈ ps.foldl titleStep acc ↔
        t ∈ acc ∨ (t ≠ "" ∧ ∃ p ∈ ps, jsTrim p.bookTitle = t) := by
  induction ps with
  | nil => intro acc t; simp
  | cons p ps ih =>
      intro acc t
      rw [List.foldl_cons, ih]
      by_cases h1 : jsTrim p.bookTitle = "" ∨ jsTrim p.bookTitle ∈ acc
      · have hstep : titleStep acc p = acc := by
          simp only [titleStep]
          rw [if_pos h1]
        rw [hstep]
        constructor
        · rintro (h | ⟨hne, q, hq, hqt⟩)
          · exact Or.inl h
          · exact Or.inr ⟨hne, q, List.mem_cons_of_mem p hq, hqt⟩
        · rintro (h | ⟨hne, q, hq, hqt⟩)
          · exact Or.inl h
          · rcases List.mem_cons.mp hq with rfl | hq'
            · rcases h1 with h1 | h1
              · exact absurd (hqt.symm.trans h1) hne
              · exact Or.inl (hqt ▸ h1)
            · exact Or.inr ⟨hne, q, hq', hqt⟩
      · have hstep : titleStep acc p = acc ++ [jsTrim p.bookTitle] := by
          simp only [titleStep]
          rw [if_neg h1]
        push_neg at h1
        obtain ⟨hne0, hnm⟩ := h1
        rw [hstep]
        simp only [List.mem_append, List.mem_singleton]
        constructor
        · rintro ((h | rfl) | ⟨hne, q, hq, hqt⟩)
          · exact Or.inl h
          · exact Or.inr ⟨hne0, p, List.mem_cons_self p ps, rfl⟩
          · exact Or.inr ⟨hne, q, List.mem_cons_of_mem p hq, hqt⟩
        · rintro (h | ⟨hne, q, hq, hqt⟩)
          · exact Or.inl (Or.inl h)
          · rcases List.mem_cons.mp hq with rfl | hq'
            · exact Or.inl (Or.inr hqt.symm)
            · exact Or.inr ⟨hne, q, hq', hqt⟩

/-- A title appears in the first-appearance list exactly when some sampled
post carries it (trimmed, nonempty). -/
theorem mem_titlesInOrder (ps : List Post) (t : String) :
    t ∈ titlesInOrder ps ↔ t ≠ "" ∧ ∃ p ∈ ps, jsTrim p.bookTitle = t := by
  rw [titlesInOrder, mem_foldl_titleStep]
  simp

/-- A collected title has a first matching post. -/
theorem firstWithTitle_isSome_of_mem (ps : List Post) (t : String)
    (h : t ∈ titlesInOrder ps) : (firstWithTitle ps t).isSome := by
  obtain ⟨hne, p, hp, hpt⟩ := (mem_titlesInOrder ps t).mp h
  cases hfind : firstWithTitle ps t with
  | some q => rfl
  | none =>
      exfalso
      have := List.find?_eq_none.mp hfind p hp
      simp [hpt] at this

/-- An uncollected nonempty title has no matching post. -/
theorem firstWithTitle_eq_none_of_not_mem (ps : List Post) (t : String)
    (hne : t ≠ "") (h : t ∉ titlesInOrder ps) : firstWithTitle ps t = none := by
  rw [firstWithTitle, List.find?_eq_none]
  intro p hp
  simp only [decide_eq_true_eq]
  intro hpt
  exact h ((mem_titlesInOrder ps t).mpr ⟨hne, p, hp, hpt⟩)

/-- Unfolding the title fold over a one-post extension of the sample. -/
theorem titlesInOrder_append (ps : List Post) (p : Post) :
    titlesInOrder (ps ++ [p]) = titleStep (titlesInOrder ps) p := by
  simp [titlesInOrder, List.foldl_append]

/-- Unfolding the group total over a one-post extension of the sample. -/
theorem groupTotal_append (ps : List Post) (p : Post) (t : String) :
    groupTotal (ps ++ [p]) t =
      groupTotal ps t +
        (if jsTrim p.bookTitle = t then p.likes.length else 0) := by
  by_cases h : jsTrim p.bookTitle = t <;>
    simp [groupTotal, List.filter_append, List.filter_cons, h]

/-- Unfolding the first matching post over a one-post extension. -/
theorem firstWithTitle_append (ps : List Post) (p : Post) (t : String) :
    firstWithTitle (ps ++ [p]) t =
      (firstWithTitle ps t).or
        (if jsTrim p.bookTitle = t then some p else none) := by
  by_cases h : jsTrim p.bookTitle = t <;>
    simp [firstWithTitle, List.find?_append, h]

/-- Extending the sample by a post of a different trimmed title leaves a
group record unchanged. -/
theorem groupFor_append_ne (ps : List Post) (p : Post) (t : String)
    (h : jsTrim p.bookTitle ≠ t) :
    groupFor (ps ++ [p]) t = groupFor ps t := by
  have h1 : firstWithTitle (ps ++ [p]) t = firstWithTitle ps t := by
    rw [firstWithTitle_append]
    simp [h]
  have h2 : groupTotal (ps ++ [p]) t = groupTotal ps t := by
    rw [groupTotal_append]
    simp [h]
  unfold groupFor
  rw [h1, h2]

/-- A group record carries its own grouping key. -/
theorem groupFor_title (ps : List Post) (t : String) :
    (groupFor ps t).title = t := by
  unfold groupFor
  cases firstWithTitle ps t <;> rfl

/-- The titles of the first-appearance groups are the collected titles. -/
theorem specGroups_titles (ps : List Post) :
    (specGroups ps).map (fun b => b.title) = titlesInOrder ps := by
  rw [specGroups, List.map_map]
  have hcomp : ((fun b : RankedBook => b.title) ∘ groupFor ps) =
      fun t : String => t := by
    funext t
    exact groupFor_title ps t
  rw [hcomp]
  exact List.map_id' (titlesInOrder ps)

/-- A trap title is never the empty string. -/
theorem protoTrapTitle_ne_empty (t : String) (h : protoTrapTitle t = true) :
    t ≠ "" := by
  intro h0
  rw [h0] at h
  exact absurd h (by decide)

/-- Titles collected from the trap-filtered sample are never trap titles. -/
theorem titlesInOrder_not_trap (ps : List Post) (t : String)
    (h : t ∈ titlesInOrder (dropTrapTitles ps)) : protoTrapTitle t = false := by
  obtain ⟨hne, q, hq, hqt⟩ := (mem_titlesInOrder (dropTrapTitles ps) t).mp h
  rw [dropTrapTitles] at hq
  have hqF := (List.mem_filter.mp hq).2
  rw [← hqt]
  simpa using hqF

/-- Unfolding the trap filter over a one-post extension of the sample. -/
theorem dropTrapTitles_append (ps : List Post) (p : Post) :
    dropTrapTitles (ps ++ [p]) =
      dropTrapTitles ps ++
        (if protoTrapTitle (jsTrim p.bookTitle) then [] else [p]) := by
  by_cases h : protoTrapTitle (jsTrim p.bookTitle) <;>
    simp [dropTrapTitles, List.filter_append, h]

/-- The JS-object grouping fold produces exactly the first-appearance groups
of the sample minus the posts whose trimmed titles collide with inherited
Object.prototype property names (those posts never create an own key): own
entries keyed by the remaining trimmed nonempty titles in order of first
appearance, each holding the first matching post's author and cover and the
group's summed likes. -/
theorem buildBookMap_eq_specGroups (ps : List Post) :
    buildBookMap ps = specGroups (dropTrapTitles ps) := by
  induction ps using List.reverseRecOn with
  | nil => rfl
  | append_singleton ps p ih =>
      have hbuild : buildBookMap (ps ++ [p]) = bookStep (buildBookMap ps) p := by
        simp [buildBookMap, List.foldl_append]
      rw [hbuild, ih]
      by_cases hp : protoTrapTitle (jsTrim p.bookTitle)
      · have hdrop : dropTrapTitles (ps ++ [p]) = dropTrapTitles ps := by
          rw [dropTrapTitles_append, if_pos hp, List.append_nil]
        rw [hdrop]
        have hne : jsTrim p.bookTitle ≠ "" := protoTrapTitle_ne_empty _ hp
        simp only [bookStep]
        rw [if_neg hne, if_pos (Or.inr hp)]
        have hcong : ∀ b ∈ specGroups (dropTrapTitles ps),
            (if b.title = jsTrim p.bookTitle then
              { b with totalLikes := b.totalLikes + p.likes.length }
            else b) = b := by
          intro b hb
          have hbt : b.title ∈ titlesInOrder (dropTrapTitles ps) := by
            have hmm := List.mem_map_of_mem (fun b : RankedBook => b.title) hb
            rwa [specGroups_titles] at hmm
          have hbtrap := titlesInOrder_not_trap ps b.title hbt
          have hneq : b.title ≠ jsTrim p.bookTitle := by
            intro heq
            rw [heq, hp] at hbtrap
            exact Bool.noConfusion hbtrap
          rw [if_neg hneq]
        rw [List.map_congr_left hcong]
        exact List.map_id' _
      · have hdrop : dropTrapTitles (ps ++ [p]) = dropTrapTitles ps ++ [p] := by
          rw [dropTrapTitles_append, if_neg hp]
        rw [hdrop]
        have hrhs : specGroups (dropTrapTitles ps ++ [p]) =
            (titleStep (titlesInOrder (dropTrapTitles ps)) p).map
              (groupFor (dropTrapTitles ps ++ [p])) := by
          rw [specGroups, titlesInOrder_append]
        rw [hrhs]
        by_cases h0 : jsTrim p.bookTitle = ""
        · have hstep : bookStep (specGroups (dropTrapTitles ps)) p =
              specGroups (dropTrapTitles ps) := by
            simp only [bookStep]
            rw [if_pos h0]
          have htitle : titleStep (titlesInOrder (dropTrapTitles ps)) p =
              titlesInOrder (dropTrapTitles ps) := by
            simp only [titleStep]
            rw [if_pos (Or.inl h0)]
          rw [hstep, htitle, specGroups]
          symm
          apply List.map_congr_left
          intro x hx
          apply groupFor_append_ne
          intro hxx
          exact ((mem_titlesInOrder (dropTrapTitles ps) x).mp hx).1
            (hxx.symm.trans h0)
        · by_cases h1 : jsTrim p.bookTitle ∈ titlesInOrder (dropTrapTitles ps)
          · have hmem : jsTrim p.bookTitle ∈
                (specGroups (dropTrapTitles ps)).map (fun b => b.title) := by
              rw [specGroups_titles]
              exact h1
            have hstep : bookStep (specGroups (dropTrapTitles ps)) p =
                (specGroups (dropTrapTitles ps)).map (fun b =>
                  if b.title = jsTrim p.bookTitle then
                    { b with totalLikes := b.totalLikes + p.likes.length }
                  else b) := by
              simp only [bookStep]
              rw [if_neg h0, if_pos (Or.inl hmem)]
            have htitle : titleStep (titlesInOrder (dropTrapTitles ps)) p =
                titlesInOrder (dropTrapTitles ps) := by
              simp only [titleStep]
              rw [if_pos (Or.inr h1)]
            rw [hstep, htitle, specGroups, List.map_map]
            apply List.map_congr_left
            intro x hx
            simp only [Function.comp_apply, groupFor_title]
            by_cases hxt : x = jsTrim p.bookTitle
            · rw [if_pos hxt]
              have hsome := firstWithTitle_isSome_of_mem (dropTrapTitles ps) x hx
              obtain ⟨p0, hp0⟩ := Option.isSome_iff_exists.mp hsome
              have h1' : firstWithTitle (dropTrapTitles ps ++ [p]) x
                  = some p0 := by
                rw [firstWithTitle_append, hp0]
                rfl
              have h2' : groupTotal (dropTrapTitles ps ++ [p]) x =
                  groupTotal (dropTrapTitles ps) x + p.likes.length := by
                rw [groupTotal_append, if_pos hxt.symm]
              unfold groupFor
              rw [hp0, h1', h2']
            · rw [if_neg hxt]
              symm
              apply groupFor_append_ne
              exact fun hpx => hxt hpx.symm
          · have hmem : jsTrim p.bookTitle ∉
                (specGroups (dropTrapTitles ps)).map (fun b => b.title) := by
              rw [specGroups_titles]
              exact h1
            have hstep : bookStep (specGroups (dropTrapTitles ps)) p =
                specGroups (dropTrapTitles ps) ++
                [⟨jsTrim p.bookTitle, p.bookAuthor, p.coverImage,
                  p.likes.length⟩] := by
              simp only [bookStep]
              rw [if_neg h0, if_neg (fun hcase => hcase.elim hmem hp)]
            have htitle : titleStep (titlesInOrder (dropTrapTitles ps)) p =
                titlesInOrder (dropTrapTitles ps) ++ [jsTrim p.bookTitle] := by
              simp only [titleStep]
              rw [if_neg (by push_neg; exact ⟨h0, h1⟩)]
            rw [hstep, htitle, List.map_append]
            congr 1
            · rw [specGroups]
              symm
              apply List.map_congr_left
              intro x hx
              apply groupFor_append_ne
              intro hxx
              exact h1 (hxx ▸ hx)
            · have hnone : firstWithTitle (dropTrapTitles ps)
                  (jsTrim p.bookTitle) = none :=
                firstWithTitle_eq_none_of_not_mem (dropTrapTitles ps)
                  (jsTrim p.bookTitle) h0 h1
              have h1' : firstWithTitle (dropTrapTitles ps ++ [p])
                  (jsTrim p.bookTitle) = some p := by
                rw [firstWithTitle_append, hnone, if_pos rfl]
                rfl
              have h0' : groupTotal (dropTrapTitles ps) (jsTrim p.bookTitle)
                  = 0 := by
                rw [groupTotal]
                have hfil : (dropTrapTitles ps).filter
                    (fun q => jsTrim q.bookTitle = jsTrim p.bookTitle) = [] := by
                  rw [List.filter_eq_nil_iff]
                  intro q hq
                  simp only [decide_eq_true_eq]
                  intro hqt
                  exact h1 ((mem_titlesInOrder (dropTrapTitles ps)
                    (jsTrim p.bookTitle)).mpr ⟨h0, q, hq, hqt⟩)
                rw [hfil]
                rfl
              have h2' : groupTotal (dropTrapTitles ps ++ [p])
                  (jsTrim p.bookTitle) = p.likes.length := by
                rw [groupTotal_append, h0', if_pos rfl]
                omega
              simp only [List.map_cons, List.map_nil]
              unfold groupFor
              rw [h1', h2']

/-! ## Sortedness of the ranking, and the popularity claim theorems -/

/-- Elements of a sorted insertion. -/
theorem mem_insertDesc (b x : RankedBook) (l : List RankedBook) :
    x ∈ insertDesc b l ↔ x = b ∨ x ∈ l := by
  induction l with
  | nil => simp [insertDesc]
  | cons c cs ih =>
      by_cases h : c.totalLikes ≤ b.totalLikes
      · rw [insertDesc, if_pos h]
        simp [List.mem_cons]
      · rw [insertDesc, if_neg h]
        simp [List.mem_cons, ih]
        tauto

/-- Insertion preserves the descending-by-totalLikes pairwise order. -/
theorem pairwise_insertDesc (b : RankedBook) (l : List RankedBook)
    (h : List.Pairwise (fun a c : RankedBook => c.totalLikes ≤ a.totalLikes) l) :
    List.Pairwise (fun a c : RankedBook => c.totalLikes ≤ a.totalLikes)
      (insertDesc b l) := by
  induction l with
  | nil => simp [insertDesc]
  | cons c cs ih =>
      rcases List.pairwise_cons.mp h with ⟨hc, hcs⟩
      by_cases hcb : c.totalLikes ≤ b.totalLikes
      · rw [insertDesc, if_pos hcb]
        refine List.pairwise_cons.mpr ⟨?_, h⟩
        intro x hx
        rcases List.mem_cons.mp hx with rfl | hx'
        · exact hcb
        · exact le_trans (hc x hx') hcb
      · rw [insertDesc, if_neg hcb]
        refine List.pairwise_cons.mpr ⟨?_, ih hcs⟩
        intro x hx
        rcases (mem_insertDesc b x cs).mp hx with rfl | hx'
        · exact le_of_not_le hcb
        · exact hc x hx'

/-- The stable descending sort is sorted descending by totalLikes. -/
theorem pairwise_sortDescLikes (l : List RankedBook) :
    List.Pairwise (fun a c : RankedBook => c.totalLikes ≤ a.totalLikes)
      (sortDescLikes l) := by
  induction l with
  | nil => exact List.Pairwise.nil
  | cons b bs ih => exact pairwise_insertDesc b (sortDescLikes bs) ih

/-- With a nonempty sample, the post-sort filter of fetchPopular keeps every
group. -/
theorem popular_filter_noop (l : List RankedBook) (n : Nat) (h : 0 < n) :
    l.filter (fun b => decide (0 < b.totalLikes) || decide (0 < n)) = l := by
  have hp : ∀ b : RankedBook,
      (decide (0 < b.totalLikes) || decide (0 < n)) = true := by
    intro b
    simp [h]
  simp [hp]

/-- Claim C3 counterexample, two independent failures of the claim as
stated.  First, on the sample [Dune (1 like), 1984 (1 like)] the code returns
1984 before Dune, while grouping by first appearance with stable descending
sort - the claim as stated - returns Dune before 1984: the groups are read
back through Object.values, which enumerates the array-index-like key "1984"
before the insertion-ordered string keys, so the tie is not broken by first
appearance.  Second, on a single post titled "constructor" the code returns
an empty ranking, while the claim as stated returns that one group: the
truthiness test `if (bookMap[title])` sees the inherited
Object.prototype.constructor, the bump lands on the inherited object, no own
key is created and Object.values returns nothing. -/
theorem claim_C3_counterexample :
    fetchPopular [dunePost, orwellPost] ≠
      popularClaimSpec [dunePost, orwellPost] ∧
    fetchPopular [dunePost, orwellPost] =
      [⟨"1984", "George Orwell", "c2", 1⟩, ⟨"Dune", "Frank Herbert", "c1", 1⟩] ∧
    popularClaimSpec [dunePost, orwellPost] =
      [⟨"Dune", "Frank Herbert", "c1", 1⟩, ⟨"1984", "George Orwell", "c2", 1⟩] ∧
    fetchPopular [protoPost] ≠ popularClaimSpec [protoPost] ∧
    fetchPopular [protoPost] = [] ∧
    popularClaimSpec [protoPost] = [⟨"constructor", "Nobody", "c3", 1⟩] :=
  ⟨by decide, by decide, by decide, by decide, by decide, by decide⟩

/-- Claim C3 (amended): the aggregator groups sampled posts by exact trimmed
bookTitle string equality (case-sensitive, no other normalization), sums each
group's likes cardinality, sorts the groups descending by that sum with a
stable sort, and returns the first 5; it is a pure function of the sample and
never mutates the sampled posts.  However, (a) posts whose trimmed title is a
property name inherited from Object.prototype (constructor, toString,
__proto__, ...) form no group at all - the truthy membership test diverts
their likes onto the inherited object, which Object.values never surfaces -
and (b) the remaining groups enter the sort in JS object key enumeration
order - titles that are canonical array-index strings first, in ascending
numeric order, then the remaining titles in insertion order of first
appearance - so ties are broken by that enumeration order, not plain
first-appearance order.  The output is sorted descending by summed likes. -/
theorem claim_C3_amended_popularity (posts : List Post) :
    fetchPopular posts = popularAmendedSpec posts ∧
    List.Pairwise (fun a c : RankedBook => c.totalLikes ≤ a.totalLikes)
      (fetchPopular posts) := by
  constructor
  · rw [fetchPopular, popularAmendedSpec, buildBookMap_eq_specGroups]
    rcases posts with _ | ⟨p, ps⟩
    · rfl
    · rw [popular_filter_noop _ _ (by simp)]
  · have hs := pairwise_sortDescLikes (jsValuesReorder (buildBookMap posts))
    rw [fetchPopular]
    exact ((hs.filter _).sublist (List.take_sublist _ _))

/-! ## Skipping blank titles (claim C9) -/

/-- The grouping fold ignores posts with a blank trimmed title, for any
accumulator. -/
theorem foldl_bookStep_filter (ps : List Post) :
    ∀ acc : List RankedBook,
      ps.foldl bookStep acc =
        (ps.filter (fun p => jsTrim p.bookTitle ≠ "")).foldl bookStep acc := by
  induction ps with
  | nil => intro acc; rfl
  | cons p ps ih =>
      intro acc
      by_cases h : jsTrim p.bookTitle = ""
      · have hstep : bookStep acc p = acc := by
          simp only [bookStep]
          rw [if_pos h]
        rw [List.foldl_cons, hstep, List.filter_cons, if_neg (by simp [h])]
        exact ih acc
      · rw [List.foldl_cons, List.filter_cons, if_pos (by simp [h]),
          List.foldl_cons]
        exact ih (bookStep acc p)

/-- Claim C9 (confirmed): the aggregator skips every sampled post whose
trimmed bookTitle is empty - the whole ranking is unchanged if those posts
are removed from the sample, so they contribute to no group, add likes to no
total and consume no slot of the top 5. -/
theorem claim_C9_blank_titles (posts : List Post) :
    fetchPopular posts =
      fetchPopular (posts.filter (fun p => jsTrim p.bookTitle ≠ "")) := by
  have hmap : buildBookMap posts =
      buildBookMap (posts.filter (fun p => jsTrim p.bookTitle ≠ "")) :=
    foldl_bookStep_filter posts []
  rw [fetchPopular, fetchPopular, hmap]
  rcases hp : posts with _ | ⟨p, ps⟩
  · rfl
  · by_cases hf : (p :: ps).filter (fun q => jsTrim q.bookTitle ≠ "") = []
    · rw [hf]
      rfl
    · rw [popular_filter_noop _ _ (by simp),
        popular_filter_noop _ _ (List.length_pos.mpr hf)]
